import Mathlib

/-!
Verification of the Java compile-and-run backend (src/index.js).

The JavaScript source is shallowly embedded.  Strings are Lean strings,
one JS character modelled as one Lean character.  Filesystem paths are
lists of path segments.  The two external process invocations are
modelled by behaviours supplied as parameters: the instant at which the
process would exit on its own, its exit code, and its captured output
streams.  Effectful steps return explicit event lists (stdin writes and
close, file writes, kill signals, the final cleanup attempt) so that the
control flow of the request handler can be stated and proved.
-/

namespace JavaRunner

/-- Constant TIMEOUT_MS = 15000 from index.js. -/
def TIMEOUT_MS : Nat := 15000

/-- Constant MAX_OUT = 30000 from index.js. -/
def MAX_OUT : Nat := 30000

/-- Characters matched by the JavaScript regex class backslash-s (whitespace),
restricted to the ones that can occur in the embedded strings. -/
def jsSpace (c : Char) : Bool :=
  c == ' ' || c == '\t' || c == '\n' || c == '\r' ||
  c == '\x0b' || c == '\x0c' || c == ' '

/-- Global replacement of the two-character sequence CR LF by LF, as performed
by the replace call in normalize. -/
def normalizeChars : List Char → List Char
  | [] => []
  | '\r' :: '\n' :: rest => '\n' :: normalizeChars rest
  | c :: rest => c :: normalizeChars rest

/-- normalize from index.js: CRLF to LF normalization (the embedding only
receives strings, so the typeof guard is vacuous). -/
def normalize (s : String) : String :=
  String.mk (normalizeChars s.data)

/-- JavaScript String.prototype.trim, dropping leading and trailing
whitespace. -/
def jsTrim (s : String) : String :=
  String.mk (((s.data.dropWhile jsSpace).reverse.dropWhile jsSpace).reverse)

/-- truncate from index.js: the empty string short-circuits, otherwise a
string longer than MAX_OUT is cut to its first MAX_OUT characters and the
truncation marker is appended. -/
def truncate (s : String) : String :=
  if s = "" then ""
  else if s.length ≤ MAX_OUT then s
  else s.take MAX_OUT ++ "\n...output truncated"

/-- Start of the capture group: the character class of A to Z, a to z and
underscore. -/
def identStart (c : Char) : Bool :=
  c.isUpper || c.isLower || c == '_'

/-- The regex class backslash-w: letters, digits and underscore. -/
def wordChar (c : Char) : Bool :=
  c.isAlphanum || c == '_'

/-- Strip a literal off the front of a character list, or fail. -/
def stripLit : List Char → List Char → Option (List Char)
  | [], s => some s
  | _ :: _, [] => none
  | l :: ls, c :: cs => if l = c then stripLit ls cs else none

/-- One-or-more whitespace (greedy), the regex piece backslash-s-plus. -/
def takeWs1 : List Char → Option (List Char)
  | [] => none
  | c :: rest => if jsSpace c then some (rest.dropWhile jsSpace) else none

/-- The capture group: one identifier-start character followed by the longest
run of word characters. -/
def takeIdent : List Char → Option String
  | [] => none
  | c :: rest =>
    if identStart c then some (String.mk (c :: rest.takeWhile wordChar)) else none

/-- Match the pattern class backslash-s-plus capture-group at the head of the
list. -/
def matchClassAt (s : List Char) : Option String := do
  let s1 ← stripLit "class".data s
  let s2 ← takeWs1 s1
  takeIdent s2

/-- Match the pattern public backslash-s-plus class backslash-s-plus
capture-group at the head of the list. -/
def matchPublicClassAt (s : List Char) : Option String := do
  let s1 ← stripLit "public".data s
  let s2 ← takeWs1 s1
  let s3 ← stripLit "class".data s2
  let s4 ← takeWs1 s3
  takeIdent s4

/-- Leftmost match: try the pattern at each start position from the left. -/
def findFirstMatch (f : List Char → Option String) : List Char → Option String
  | [] => none
  | c :: rest =>
    match f (c :: rest) with
    | some r => some r
    | none => findFirstMatch f rest

/-- detectMainClass from index.js: first try the public-class regex, then the
bare class regex, else null. -/
def detectMainClass (code : String) : Option String :=
  match findFirstMatch matchPublicClassAt code.data with
  | some n => some n
  | none => findFirstMatch matchClassAt code.data

/-- Split a character list at every slash. -/
def splitSlashAux : List Char → List Char → List (List Char)
  | [], acc => [acc.reverse]
  | '/' :: rest, acc => acc.reverse :: splitSlashAux rest []
  | c :: rest, acc => splitSlashAux rest (c :: acc)

/-- JavaScript String.prototype.endsWith at the character level. -/
def jsEndsWith (s suffixStr : String) : Bool :=
  List.isSuffixOf suffixStr.data s.data

/-- Split a relative file name into its slash-separated segments, dropping
empty segments (Node path normalization collapses repeated separators). -/
def pathSegs (name : String) : List String :=
  ((splitSlashAux name.data []).map String.mk).filter (fun seg => seg != "")

/-- One step of Node path normalization: a dot segment is dropped, a
dot-dot segment removes the last segment kept so far (at the root it is a
no-op, as for an absolute path), any other segment is appended. -/
def normStep (acc : List String) (seg : String) : List String :=
  if seg = "." then acc
  else if seg = ".." then acc.dropLast
  else acc ++ [seg]

/-- Node path normalization over a segment list of an absolute path. -/
def normSegs (segs : List String) : List String :=
  segs.foldl normStep []

/-- Node path.join of an absolute base directory and a file name: concatenate
the segments, then normalize. -/
def pathJoin (base : List String) (name : String) : List String :=
  normSegs (base ++ pathSegs name)

/-- Node path.dirname on a segment list. -/
def pathDirname (p : List String) : List String :=
  p.dropLast

/-- One entry of the request body field files. -/
structure FileEntry where
  name : String
  content : String
deriving DecidableEq, Repr

/-- One file written into the WorkArea: the directory created by the
recursive mkdir preceding the write (none for the single-blob write, which
performs no mkdir), the full path of the file, and its content. -/
structure WriteEvent where
  mkdirPath : Option (List String)
  filePath : List String
  content : String
deriving DecidableEq, Repr

/-- The loop of writeFiles over body.files: names are coerced and trimmed,
entries whose trimmed name does not end in .java are skipped silently, the
rest are written to path.join of the WorkArea and the name, after CRLF
normalization of the content, with intermediate directories created. -/
def writeMulti (workDir : List String) : List FileEntry → List WriteEvent
  | [] => []
  | f :: rest =>
    let name := jsTrim f.name
    if jsEndsWith name ".java" then
      let fullPath := pathJoin workDir name
      ⟨some (pathDirname fullPath), fullPath, normalize f.content⟩ :: writeMulti workDir rest
    else writeMulti workDir rest

/-- The JSON request body of the run endpoint; absent fields are none. -/
structure RunBody where
  code : Option String
  files : Option (List FileEntry)
  mainClass : Option String
  input : Option String
deriving DecidableEq, Repr

/-- writeFiles from index.js: with a non-empty files array each entry goes
through the multi-file loop; otherwise the single code blob is written under
the detected class name, and the absence of any detected class is a thrown
error. -/
def writeFiles (workDir : List String) (body : RunBody) : Except String (List WriteEvent) :=
  let fs := body.files.getD []
  if fs.length > 0 then .ok (writeMulti workDir fs)
  else
    let code := normalize (body.code.getD "")
    match detectMainClass code with
    | none => .error "No class found in code."
    | some main => .ok [⟨none, pathJoin workDir (main ++ ".java"), code⟩]

/-- Behaviour of one spawned external process: the instant (in milliseconds)
at which it would exit on its own, none for a process that never exits, its
exit code when it does, and the output accumulated on each stream by the
time the process ends. -/
structure ProcBehavior where
  exitsAt : Option Nat
  exitCode : Int
  stdout : String
  stderr : String
deriving DecidableEq, Repr

/-- The structured result runProcess resolves with: the exit code passed to
the close event (none when the process was killed by a signal), the
killedByTimeout flag, and the accumulated streams. -/
structure ProcResult where
  code : Option Int
  killedByTimeout : Bool
  stdout : String
  stderr : String
deriving DecidableEq, Repr

/-- Events on the spawned process's input stream. -/
inductive StdinEvent
  | write (s : String)
  | close
deriving DecidableEq, Repr

/-- Everything one runProcess call does: the result it resolves with, the
input-stream events it performs, and the kill signals it sends. -/
structure ProcCall where
  result : ProcResult
  stdin : List StdinEvent
  kills : List String
deriving DecidableEq, Repr

/-- The stdin handling at the end of runProcess: a provided non-empty string
input is written, then the stream is always closed. -/
def stdinEvents (input : Option String) : List StdinEvent :=
  match input with
  | some s => if s.length > 0 then [.write s, .close] else [.close]
  | none => [.close]

/-- The effective timeout: a missing or zero timeoutMs option falls back to
TIMEOUT_MS, as the or-expression in runProcess does. -/
def effTimeout (timeoutMs : Nat) : Nat :=
  if timeoutMs = 0 then TIMEOUT_MS else timeoutMs

/-- runProcess from index.js.  If the child would exit before the timer
fires, the close event delivers its exit code and the timer is cleared;
otherwise the timer fires first, sets killedByTimeout and sends SIGKILL,
and the close event then reports a null exit code. -/
def runProcess (timeoutMs : Nat) (b : ProcBehavior) (input : Option String) : ProcCall :=
  match b.exitsAt with
  | some t =>
    if t < effTimeout timeoutMs then
      ⟨⟨some b.exitCode, false, b.stdout, b.stderr⟩, stdinEvents input, []⟩
    else
      ⟨⟨none, true, b.stdout, b.stderr⟩, stdinEvents input, ["SIGKILL"]⟩
  | none => ⟨⟨none, true, b.stdout, b.stderr⟩, stdinEvents input, ["SIGKILL"]⟩

/-- The promise returned by runProcess: its executor only ever calls
resolve, so the settled promise is always an ok value. -/
def runProcessPromise (timeoutMs : Nat) (b : ProcBehavior) (input : Option String) :
    Except String ProcCall :=
  .ok (runProcess timeoutMs b input)

/-- The two pipeline steps of runJavaLocal. -/
inductive Step
  | compile
  | run
deriving DecidableEq, Repr

/-- Message returned when the recursive walk finds no java files. -/
def noSourcesMsg : String := "❌ No .java files found."

/-- Message returned when the compiler is killed by the timeout. -/
def compileTimeoutMsg : String := "⏱️ Compile time limit exceeded."

/-- Fallback message when the compiler exits non-zero with empty output. -/
def compileErrorMsg : String := "❌ Compile error."

/-- Run-timeout message for blank input. -/
def waitInputMsg : String :=
  "⏱️ Program waited for input. Please type input in Input box (Scanner)."

/-- Run-timeout message for non-blank input. -/
def loopMsg : String := "⏱️ Time limit exceeded (possible infinite loop)."

/-- What one call of runJavaLocal produced: the output string it returned,
the pipeline steps it performed, and the two process calls when they
happened. -/
structure RunOutcome where
  output : String
  steps : List Step
  compileCall : Option ProcCall
  runCall : Option ProcCall
deriving DecidableEq, Repr

/-- runJavaLocal from index.js.  The recursive directory walk is abstracted
by its result, the list of discovered java file paths; the behaviour of the
two spawned processes is supplied as parameters.  An empty discovery list
returns the no-sources message; the compiler runs with no stdin payload
under TIMEOUT_MS; a compile timeout and a non-zero compile exit are
terminal; otherwise java runs with the normalized input plus a newline as
stdin payload, a run timeout selects one of two messages by blankness of
the input, and a normal exit returns the truncated combined output. -/
def runJavaLocal (javaFiles : List (List String)) (cB rB : ProcBehavior)
    (input : String) : RunOutcome :=
  if javaFiles.length = 0 then ⟨noSourcesMsg, [], none, none⟩
  else
    let cc := runProcess TIMEOUT_MS cB none
    let c := cc.result
    let compileOut := truncate (c.stdout ++ c.stderr)
    if c.killedByTimeout then ⟨compileTimeoutMsg, [.compile], some cc, none⟩
    else if c.code ≠ some 0 then
      ⟨if compileOut = "" then compileErrorMsg else compileOut, [.compile], some cc, none⟩
    else
      let rc := runProcess TIMEOUT_MS rB (some (normalize input ++ "\n"))
      let r := rc.result
      if r.killedByTimeout then
        ⟨if jsTrim input = "" then waitInputMsg else loopMsg,
         [.compile, .run], some cc, some rc⟩
      else ⟨truncate (r.stdout ++ r.stderr), [.compile, .run], some cc, some rc⟩

/-- The HTTP response of the run endpoint: status code and the output field
of the JSON body. -/
structure Response where
  status : Nat
  output : String
deriving DecidableEq, Repr

/-- The cleanup attempt performed in the finally block: fs.rm of the
WorkArea with the recursive and force options, whether this removal itself
failed, and whether such a failure propagated out of the handler (the
attached catch swallows it, so it never does). -/
structure RmEvent where
  attempted : Bool
  path : List String
  recursive : Bool
  force : Bool
  failed : Bool
  propagated : Bool
deriving DecidableEq, Repr

/-- Environment of one request: the WorkArea path, whether the initial
mkdir throws, the walk result, the behaviours of the two processes, and
whether the final fs.rm fails. -/
structure HandlerEnv where
  workDir : List String
  mkdirFails : Option String
  javaFiles : List (List String)
  compileB : ProcBehavior
  runB : ProcBehavior
  rmFails : Bool
deriving DecidableEq, Repr

/-- Message of the early return when no entry-point name was resolved. -/
def mainClassNotFoundMsg : String :=
  "❌ mainClass not found. Use public class Main \x7b ... \x7d"

/-- The entry-point resolution of the handler: the trimmed mainClass body
field if non-empty, else the detected class of the normalized code field,
else empty.  It never looks at the files field. -/
def resolveMainClass (body : RunBody) : String :=
  let m := jsTrim (body.mainClass.getD "")
  if m = "" then
    match detectMainClass (normalize (body.code.getD "")) with
    | some autoMain => autoMain
    | none => ""
  else m

/-- Everything one request produced: the response, the pipeline steps, the
files written into the WorkArea, and the final cleanup event. -/
structure HandlerResult where
  response : Response
  steps : List Step
  writes : List WriteEvent
  rm : RmEvent
deriving DecidableEq, Repr

/-- The try block of the run endpoint handler: mkdir, writeFiles, entry
point resolution with its early return, then the pipeline; a thrown error
is caught and becomes a 500 response. -/
def handlerCore (env : HandlerEnv) (body : RunBody) :
    Response × List Step × List WriteEvent :=
  match env.mkdirFails with
  | some msg => (⟨500, "Server error: " ++ msg⟩, [], [])
  | none =>
    match writeFiles env.workDir body with
    | .error msg => (⟨500, "Server error: " ++ msg⟩, [], [])
    | .ok writes =>
      let mc := resolveMainClass body
      if mc = "" then (⟨200, mainClassNotFoundMsg⟩, [], writes)
      else
        let o := runJavaLocal env.javaFiles env.compileB env.runB
          (normalize (body.input.getD ""))
        (⟨200, o.output⟩, o.steps, writes)

/-- The run endpoint handler: the try block, then on every exit path the
finally block attempts the recursive forced removal of the WorkArea, and
the catch attached to that removal swallows its failure. -/
def handler (env : HandlerEnv) (body : RunBody) : HandlerResult :=
  let core := handlerCore env body
  ⟨core.1, core.2.1, core.2.2, ⟨true, env.workDir, true, true, env.rmFails, false⟩⟩

/-! Helper lemmas shared by the claim theorems. -/

/-- The stdin events of a runProcess call do not depend on the timing
branch: they are always the events of its input option. -/
theorem runProcess_stdin (t : Nat) (b : ProcBehavior) (inp : Option String) :
    (runProcess t b inp).stdin = stdinEvents inp := by
  unfold runProcess
  cases b.exitsAt with
  | none => rfl
  | some e => by_cases h : e < effTimeout t <;> simp [h]

/-- A string with the newline appended is non-empty, so stdinEvents writes
it before the close. -/
theorem stdinEvents_newline (s : String) :
    stdinEvents (some (s ++ "\n")) = [.write (s ++ "\n"), .close] := by
  have h1 : ("\n" : String).length = 1 := rfl
  have h : 0 < (s ++ "\n").length := by
    rw [String.length_append, h1]
    omega
  simp only [stdinEvents]
  rw [if_pos h]

/-- The compile call recorded by the pipeline, when present, is exactly the
compiler invocation with no stdin payload. -/
theorem runJavaLocal_compileCall (fs : List (List String)) (cB rB : ProcBehavior)
    (input : String) :
    (runJavaLocal fs cB rB input).compileCall = none ∨
    (runJavaLocal fs cB rB input).compileCall = some (runProcess TIMEOUT_MS cB none) := by
  by_cases h0 : fs.length = 0
  · left
    simp [runJavaLocal, h0]
  · by_cases h1 : (runProcess TIMEOUT_MS cB none).result.killedByTimeout = true
    · right
      simp [runJavaLocal, h0, h1]
    · by_cases h2 : (runProcess TIMEOUT_MS cB none).result.code = some 0
      · by_cases h3 : (runProcess TIMEOUT_MS rB (some (normalize input ++ "\n"))).result.killedByTimeout = true
        · right
          simp [runJavaLocal, h0, h1, h2, h3]
        · right
          simp [runJavaLocal, h0, h1, h2, h3]
      · right
        simp [runJavaLocal, h0, h1, h2]

/-- The run call recorded by the pipeline, when present, is exactly the
java invocation whose stdin payload is the normalized input plus one
newline. -/
theorem runJavaLocal_runCall (fs : List (List String)) (cB rB : ProcBehavior)
    (input : String) :
    (runJavaLocal fs cB rB input).runCall = none ∨
    (runJavaLocal fs cB rB input).runCall =
      some (runProcess TIMEOUT_MS rB (some (normalize input ++ "\n"))) := by
  by_cases h0 : fs.length = 0
  · left
    simp [runJavaLocal, h0]
  · by_cases h1 : (runProcess TIMEOUT_MS cB none).result.killedByTimeout = true
    · left
      simp [runJavaLocal, h0, h1]
    · by_cases h2 : (runProcess TIMEOUT_MS cB none).result.code = some 0
      · by_cases h3 : (runProcess TIMEOUT_MS rB (some (normalize input ++ "\n"))).result.killedByTimeout = true
        · right
          simp [runJavaLocal, h0, h1, h2, h3]
        · right
          simp [runJavaLocal, h0, h1, h2, h3]
      · left
        simp [runJavaLocal, h0, h1, h2]

/-- C3: a string of length at most the cap MAX_OUT is returned unmodified
by truncate, and a longer string is cut to exactly its first MAX_OUT
characters with the fixed truncation marker appended. -/
theorem C3_truncate_cap (s : String) :
    truncate s =
      if s.length ≤ MAX_OUT then s
      else s.take MAX_OUT ++ "\n...output truncated" := by
  by_cases h : s = ""
  · subst h
    simp [truncate, MAX_OUT]
  · simp [truncate, h]

/-- C6: a runProcess call is flagged as not timed out exactly when the
child exits strictly before the effective timeout; whenever the flag is
set the call sent exactly one unconditional SIGKILL (no graceful signal,
no grace period), and a call whose child exited in time sent no signal at
all. -/
theorem C6_timeout_kill (t : Nat) (b : ProcBehavior) (inp : Option String) :
    ((runProcess t b inp).result.killedByTimeout = false ↔
      ∃ e, b.exitsAt = some e ∧ e < effTimeout t) ∧
    ((runProcess t b inp).result.killedByTimeout = true →
      (runProcess t b inp).kills = ["SIGKILL"]) ∧
    ((runProcess t b inp).result.killedByTimeout = false →
      (runProcess t b inp).kills = []) := by
  unfold runProcess
  cases h : b.exitsAt with
  | none => simp
  | some e => by_cases he : e < effTimeout t <;> simp [he]

/-- C6 witness: a child that never exits is killed with SIGKILL, a child
exiting at instant 0 under the default timeout is not signalled. -/
theorem C6_witness :
    (runProcess 15000 ⟨none, 0, "", ""⟩ none).kills = ["SIGKILL"] ∧
    (runProcess 15000 ⟨some 0, 0, "", ""⟩ none).kills = [] :=
  ⟨(C6_timeout_kill 15000 ⟨none, 0, "", ""⟩ none).2.1 (by decide),
   (C6_timeout_kill 15000 ⟨some 0, 0, "", ""⟩ none).2.2 (by decide)⟩

/-- C7: the promise of runProcess always settles ok with the structured
result (exit code, timed-out flag, both streams) and never with an error;
a child exiting in time delivers its exit code in the result even when it
is non-zero. -/
theorem C7_never_rejects (t : Nat) (b : ProcBehavior) (inp : Option String) :
    (∃ pc, runProcessPromise t b inp = Except.ok pc) ∧
    (∀ msg, runProcessPromise t b inp ≠ Except.error msg) ∧
    (∀ e, b.exitsAt = some e → e < effTimeout t →
      (runProcess t b inp).result = ⟨some b.exitCode, false, b.stdout, b.stderr⟩) := by
  refine ⟨⟨runProcess t b inp, rfl⟩, ?_, ?_⟩
  · intro msg h
    simp [runProcessPromise] at h
  · intro e he hlt
    simp [runProcess, he, hlt]

/-- C7 witness: a child exiting with code 7 yields an ok result carrying
code 7 rather than a rejection. -/
theorem C7_witness :
    (runProcess 15000 ⟨some 3, 7, "o", "e"⟩ none).result =
      ⟨some 7, false, "o", "e"⟩ :=
  (C7_never_rejects 15000 ⟨some 3, 7, "o", "e"⟩ none).2.2 3 rfl (by decide)

/-- C5 counterexample: with an empty request input the run invocation of
the pipeline still writes a bare newline to the child's stdin before
closing it, instead of closing the stream with nothing written. -/
theorem C5_counterexample :
    ((runJavaLocal [["A.java"]] ⟨some 0, 0, "", ""⟩ ⟨some 1, 0, "", ""⟩ "").runCall.map
        ProcCall.stdin).getD []
      = [StdinEvent.write "\n", StdinEvent.close] ∧
    [StdinEvent.write "\n", StdinEvent.close] ≠ [StdinEvent.close] := by
  decide

/-- C5 amended: the compile invocation passes no stdin payload and its
stream is closed immediately with nothing written; the run invocation
always writes the normalized request input followed by exactly one
newline and then closes the stream — an empty request input therefore
yields a single bare newline, not an immediate close; and the runner
itself writes any provided non-empty payload verbatim before the close. -/
theorem C5_stdin (fs : List (List String)) (cB rB : ProcBehavior) (input : String) :
    (∀ cc, (runJavaLocal fs cB rB input).compileCall = some cc →
      cc.stdin = [StdinEvent.close]) ∧
    (∀ rc, (runJavaLocal fs cB rB input).runCall = some rc →
      rc.stdin = [StdinEvent.write (normalize input ++ "\n"), StdinEvent.close]) ∧
    (∀ s : String, 0 < s.length →
      stdinEvents (some s) = [StdinEvent.write s, StdinEvent.close]) ∧
    stdinEvents none = [StdinEvent.close] := by
  refine ⟨?_, ?_, ?_, rfl⟩
  · intro cc hcc
    rcases runJavaLocal_compileCall fs cB rB input with h | h
    · rw [h] at hcc
      cases hcc
    · rw [h] at hcc
      injection hcc with h2
      subst h2
      rw [runProcess_stdin]
      rfl
  · intro rc hrc
    rcases runJavaLocal_runCall fs cB rB input with h | h
    · rw [h] at hrc
      cases hrc
    · rw [h] at hrc
      injection hrc with h2
      subst h2
      rw [runProcess_stdin, stdinEvents_newline]
  · intro s hs
    simp only [stdinEvents]
    rw [if_pos hs]

/-- C5 witness: in a concrete pipeline whose compile step succeeds and
whose run step returns, the compile stdin trace is a bare close and the
run stdin trace is the payload with one newline followed by the close. -/
theorem C5_witness :
    (⟨⟨some 0, false, "", ""⟩, [StdinEvent.close], []⟩ : ProcCall).stdin
      = [StdinEvent.close] ∧
    (⟨⟨some 2, false, "o", "e"⟩, [StdinEvent.write "x\n", StdinEvent.close], []⟩ : ProcCall).stdin
      = [StdinEvent.write (normalize "x" ++ "\n"), StdinEvent.close] :=
  ⟨(C5_stdin [["A.java"]] ⟨some 0, 0, "", ""⟩ ⟨some 1, 2, "o", "e"⟩ "x").1 _ (by decide),
   (C5_stdin [["A.java"]] ⟨some 0, 0, "", ""⟩ ⟨some 1, 2, "o", "e"⟩ "x").2.1 _ (by decide)⟩

/-- The step lists the pipeline can perform: nothing, compile only, or
compile then run, with the run step occurring only after a compile that
was not timed out and exited zero. -/
theorem runJavaLocal_steps (fs : List (List String)) (cB rB : ProcBehavior)
    (input : String) :
    (runJavaLocal fs cB rB input).steps = [] ∨
    (runJavaLocal fs cB rB input).steps = [Step.compile] ∨
    ((runJavaLocal fs cB rB input).steps = [Step.compile, Step.run] ∧
     (runProcess TIMEOUT_MS cB none).result.killedByTimeout = false ∧
     (runProcess TIMEOUT_MS cB none).result.code = some 0) := by
  by_cases h0 : fs.length = 0
  · left
    simp [runJavaLocal, h0]
  · by_cases h1 : (runProcess TIMEOUT_MS cB none).result.killedByTimeout = true
    · right
      left
      simp [runJavaLocal, h0, h1]
    · by_cases h2 : (runProcess TIMEOUT_MS cB none).result.code = some 0
      · right
        right
        refine ⟨?_, by simpa using h1, h2⟩
        by_cases h3 : (runProcess TIMEOUT_MS rB (some (normalize input ++ "\n"))).result.killedByTimeout = true
        · simp [runJavaLocal, h0, h1, h2, h3]
        · simp [runJavaLocal, h0, h1, h2, h3]
      · right
        left
        simp [runJavaLocal, h0, h1, h2]

/-- C2 amended: the pipeline has exactly the five terminal outcomes — an
empty discovery list gives the no-sources outcome with no step performed;
a compile timeout gives the compile-timeout outcome; a non-zero compiler
exit gives the compile-error outcome carrying the capped combined compiler
output when that output is non-empty and the fixed compile-error message
when it is empty; a run timeout gives one of the two run-timeout messages;
and a normal run exit with any exit code gives the capped combined run
output.  The run step happens only when the compile step was not timed out
and exited zero, and no step is performed more than once. -/
theorem C2_state_machine (fs : List (List String)) (cB rB : ProcBehavior)
    (input : String) :
    (fs = [] → runJavaLocal fs cB rB input = ⟨noSourcesMsg, [], none, none⟩) ∧
    (fs ≠ [] → (runProcess TIMEOUT_MS cB none).result.killedByTimeout = true →
      (runJavaLocal fs cB rB input).output = compileTimeoutMsg ∧
      (runJavaLocal fs cB rB input).steps = [Step.compile]) ∧
    (fs ≠ [] → (runProcess TIMEOUT_MS cB none).result.killedByTimeout = false →
      (runProcess TIMEOUT_MS cB none).result.code ≠ some 0 →
      (runJavaLocal fs cB rB input).output =
        (if truncate ((runProcess TIMEOUT_MS cB none).result.stdout ++
              (runProcess TIMEOUT_MS cB none).result.stderr) = ""
         then compileErrorMsg
         else truncate ((runProcess TIMEOUT_MS cB none).result.stdout ++
              (runProcess TIMEOUT_MS cB none).result.stderr)) ∧
      (runJavaLocal fs cB rB input).steps = [Step.compile]) ∧
    (fs ≠ [] → (runProcess TIMEOUT_MS cB none).result.killedByTimeout = false →
      (runProcess TIMEOUT_MS cB none).result.code = some 0 →
      (runProcess TIMEOUT_MS rB (some (normalize input ++ "\n"))).result.killedByTimeout = true →
      ((runJavaLocal fs cB rB input).output = waitInputMsg ∨
       (runJavaLocal fs cB rB input).output = loopMsg) ∧
      (runJavaLocal fs cB rB input).steps = [Step.compile, Step.run]) ∧
    (fs ≠ [] → (runProcess TIMEOUT_MS cB none).result.killedByTimeout = false →
      (runProcess TIMEOUT_MS cB none).result.code = some 0 →
      (runProcess TIMEOUT_MS rB (some (normalize input ++ "\n"))).result.killedByTimeout = false →
      (runJavaLocal fs cB rB input).output =
        truncate ((runProcess TIMEOUT_MS rB (some (normalize input ++ "\n"))).result.stdout ++
          (runProcess TIMEOUT_MS rB (some (normalize input ++ "\n"))).result.stderr) ∧
      (runJavaLocal fs cB rB input).steps = [Step.compile, Step.run]) ∧
    (Step.run ∈ (runJavaLocal fs cB rB input).steps →
      (runProcess TIMEOUT_MS cB none).result.killedByTimeout = false ∧
      (runProcess TIMEOUT_MS cB none).result.code = some 0) ∧
    (runJavaLocal fs cB rB input).steps.count Step.compile ≤ 1 ∧
    (runJavaLocal fs cB rB input).steps.count Step.run ≤ 1 := by
  refine ⟨?_, ?_, ?_, ?_, ?_, ?_, ?_, ?_⟩
  · intro h
    subst h
    simp [runJavaLocal]
  · intro hne h1
    have h0 : ¬fs.length = 0 := by simpa using hne
    constructor <;> simp [runJavaLocal, h0, h1]
  · intro hne h1 h2
    have h0 : ¬fs.length = 0 := by simpa using hne
    constructor <;> simp [runJavaLocal, h0, h1, h2]
  · intro hne h1 h2 h3
    have h0 : ¬fs.length = 0 := by simpa using hne
    refine ⟨?_, by simp [runJavaLocal, h0, h1, h2, h3]⟩
    by_cases h4 : jsTrim input = ""
    · left
      simp [runJavaLocal, h0, h1, h2, h3, h4]
    · right
      simp [runJavaLocal, h0, h1, h2, h3, h4]
  · intro hne h1 h2 h3
    have h0 : ¬fs.length = 0 := by simpa using hne
    constructor <;> simp [runJavaLocal, h0, h1, h2, h3]
  · intro hmem
    rcases runJavaLocal_steps fs cB rB input with h | h | ⟨h, hk, hc⟩
    · rw [h] at hmem
      cases hmem
    · rw [h] at hmem
      simp at hmem
    · exact ⟨hk, hc⟩
  · rcases runJavaLocal_steps fs cB rB input with h | h | ⟨h, _, _⟩ <;> rw [h] <;> decide
  · rcases runJavaLocal_steps fs cB rB input with h | h | ⟨h, _, _⟩ <;> rw [h] <;> decide

/-- C2 counterexample: a compiler that exits non-zero with empty combined
output makes the pipeline return the fixed compile-error message, which is
not the capped combined compiler output (that would be the empty string)
required by the claim. -/
theorem C2_counterexample :
    (runJavaLocal [["A.java"]] ⟨some 0, 1, "", ""⟩ ⟨some 0, 0, "", ""⟩ "").output
      = compileErrorMsg ∧
    compileErrorMsg ≠ truncate ("" ++ "") := by
  decide

/-- C2 witness: a compile timeout on a non-empty discovery list is terminal
with the compile-timeout message after the compile step alone. -/
theorem C2_witness :
    (runJavaLocal [["A.java"]] ⟨none, 0, "o", "e"⟩ ⟨some 0, 0, "", ""⟩ "x").output
      = compileTimeoutMsg ∧
    (runJavaLocal [["A.java"]] ⟨none, 0, "o", "e"⟩ ⟨some 0, 0, "", ""⟩ "x").steps
      = [Step.compile] :=
  (C2_state_machine [["A.java"]] ⟨none, 0, "o", "e"⟩ ⟨some 0, 0, "", ""⟩ "x").2.1
    (by decide) (by decide)

/-- C9 amended: when the run step is reached and is killed by the timeout,
the returned message is the waiting-for-input variant when the supplied
input is blank — empty or whitespace-only after trimming — and the
infinite-loop variant when it contains any non-whitespace character; the
outcome is terminal after exactly one compile and one run step. -/
theorem C9_run_timeout (fs : List (List String)) (cB rB : ProcBehavior) (input : String)
    (hne : fs ≠ [])
    (h1 : (runProcess TIMEOUT_MS cB none).result.killedByTimeout = false)
    (h2 : (runProcess TIMEOUT_MS cB none).result.code = some 0)
    (h3 : (runProcess TIMEOUT_MS rB (some (normalize input ++ "\n"))).result.killedByTimeout = true) :
    (runJavaLocal fs cB rB input).output =
      (if jsTrim input = "" then waitInputMsg else loopMsg) ∧
    (runJavaLocal fs cB rB input).steps = [Step.compile, Step.run] := by
  have h0 : ¬fs.length = 0 := by simpa using hne
  constructor <;> simp [runJavaLocal, h0, h1, h2, h3]

/-- C9 witness: a run timeout with the non-blank input x yields the
infinite-loop variant after one compile and one run step. -/
theorem C9_witness :
    (runJavaLocal [["A.java"]] ⟨some 0, 0, "", ""⟩ ⟨none, 0, "", ""⟩ "x").output = loopMsg ∧
    (runJavaLocal [["A.java"]] ⟨some 0, 0, "", ""⟩ ⟨none, 0, "", ""⟩ "x").steps
      = [Step.compile, Step.run] := by
  have h := C9_run_timeout [["A.java"]] ⟨some 0, 0, "", ""⟩ ⟨none, 0, "", ""⟩ "x"
    (by decide) (by decide) (by decide) (by decide)
  exact ⟨h.1.trans (by decide), h.2⟩

/-- C9 counterexample: the input of a single space is non-empty, yet a run
timeout with it returns the waiting-for-input variant instead of the
infinite-loop variant the claim requires for non-empty input. -/
theorem C9_counterexample :
    (" " : String) ≠ "" ∧
    (runJavaLocal [["A.java"]] ⟨some 0, 0, "", ""⟩ ⟨none, 0, "", ""⟩ " ").output
      = waitInputMsg ∧
    waitInputMsg ≠ loopMsg := by
  decide

/-- Normalization steps that are not a dot-dot segment never shorten the
accumulated path, so the starting path stays a prefix of the result. -/
theorem prefix_foldl_normStep (segs : List String) :
    ∀ acc : List String, (∀ s ∈ segs, s ≠ "..") →
      acc <+: segs.foldl normStep acc := by
  induction segs with
  | nil =>
    intro acc _
    exact List.prefix_refl acc
  | cons s rest ih =>
    intro acc h
    have h1 : s ≠ ".." := h s (List.mem_cons_self s rest)
    have step : acc <+: normStep acc s := by
      unfold normStep
      by_cases hd : s = "."
      · simp [hd]
      · rw [if_neg hd, if_neg h1]
        exact List.prefix_append acc [s]
    have tail := ih (normStep acc s) (fun x hx => h x (List.mem_cons_of_mem s hx))
    rw [List.foldl_cons]
    exact step.trans tail

/-- C8 amended: every supplied file whose trimmed name ends in the java
extension is written, with its content CRLF-normalized, to the joined and
normalized path of the WorkArea and the name, with its parent directory
created; every other supplied file is skipped silently; and the resulting
path stays inside the WorkArea whenever the trimmed name contains no
dot-dot segment — a name with dot-dot segments can resolve outside the
WorkArea, since no containment check is performed. -/
theorem C8_materialization (workDir : List String) (fs : List FileEntry) :
    (writeMulti workDir fs =
      (fs.filter (fun f => jsEndsWith (jsTrim f.name) ".java")).map
        (fun f => ⟨some (pathDirname (pathJoin workDir (jsTrim f.name))),
                   pathJoin workDir (jsTrim f.name), normalize f.content⟩)) ∧
    (∀ f rest, jsEndsWith (jsTrim f.name) ".java" = false →
      writeMulti workDir (f :: rest) = writeMulti workDir rest) ∧
    (normSegs workDir = workDir →
      ∀ name : String, (∀ seg ∈ pathSegs name, seg ≠ "..") →
        workDir <+: pathJoin workDir name) := by
  refine ⟨?_, ?_, ?_⟩
  · induction fs with
    | nil => rfl
    | cons f rest ih =>
      by_cases h : jsEndsWith (jsTrim f.name) ".java" <;>
        simp [writeMulti, h, ih]
  · intro f rest h
    simp [writeMulti, h]
  · intro hnorm name hsegs
    unfold pathJoin
    unfold normSegs
    rw [List.foldl_append]
    have : List.foldl normStep [] workDir = workDir := hnorm
    rw [this]
    exact prefix_foldl_normStep (pathSegs name) workDir hsegs

/-- C8 witness: a plain name in a package directory is written inside the
WorkArea with normalized content, and a non-java name is skipped. -/
theorem C8_witness :
    writeMulti ["tmp", "wa"] [⟨"pkg/A.java", "a\r\nb"⟩] =
      [⟨some ["tmp", "wa", "pkg"], ["tmp", "wa", "pkg", "A.java"], "a\nb"⟩] ∧
    writeMulti ["tmp", "wa"] [⟨"B.txt", "y"⟩] = [] ∧
    ["tmp", "wa"] <+: pathJoin ["tmp", "wa"] "pkg/A.java" := by
  refine ⟨?_, ?_, ?_⟩
  · rw [(C8_materialization ["tmp", "wa"] [⟨"pkg/A.java", "a\r\nb"⟩]).1]
    decide
  · rw [(C8_materialization ["tmp", "wa"] [⟨"B.txt", "y"⟩]).2.1 _ [] (by decide)]
    rfl
  · exact (C8_materialization ["tmp", "wa"] []).2.2 (by decide) "pkg/A.java" (by decide)

/-- C8 counterexample: a file name with a leading dot-dot segment is
written to a path outside the WorkArea — the claimed containment fails. -/
theorem C8_counterexample :
    writeMulti ["tmp", "wa"] [⟨"../Evil.java", "x"⟩] =
      [⟨some ["tmp"], ["tmp", "Evil.java"], "x"⟩] ∧
    List.isPrefixOf ["tmp", "wa"] ["tmp", "Evil.java"] = false := by
  decide

/-- C4: entry-point detection prefers the leftmost match of the
public-class pattern, otherwise falls back to the leftmost match of the
bare class pattern, and otherwise yields none; a single-blob request (no
files array) whose code has no detectable class ends as a thrown input
error caught into a 500 response, with no pipeline step run and no file
written. -/
theorem C4_entry_point (code : String) (env : HandlerEnv) (body : RunBody) :
    (∀ n, findFirstMatch matchPublicClassAt code.data = some n →
      detectMainClass code = some n) ∧
    (findFirstMatch matchPublicClassAt code.data = none →
      detectMainClass code = findFirstMatch matchClassAt code.data) ∧
    (env.mkdirFails = none → body.files = none →
      detectMainClass (normalize (body.code.getD "")) = none →
      (handler env body).response = ⟨500, "Server error: No class found in code."⟩ ∧
      (handler env body).steps = [] ∧
      (handler env body).writes = []) := by
  refine ⟨?_, ?_, ?_⟩
  · intro n h
    simp [detectMainClass, h]
  · intro h
    simp [detectMainClass, h]
  · intro hmk hfiles hdet
    have hw : writeFiles env.workDir body = .error "No class found in code." := by
      simp [writeFiles, hfiles, hdet]
    refine ⟨?_, ?_, ?_⟩ <;> simp [handler, handlerCore, hmk, hw]

/-- C4 witness: the public-class pattern wins over an earlier bare class
declaration, and a concrete classless single-blob request gets the 500
input-error response with no step and no write. -/
theorem C4_witness :
    detectMainClass "class B \x7b\x7d public class A \x7b\x7d" = some "A" ∧
    (handler ⟨["tmp", "w"], none, [], ⟨some 0, 0, "", ""⟩, ⟨some 0, 0, "", ""⟩, false⟩
        ⟨some "int x", none, none, none⟩).response
      = ⟨500, "Server error: No class found in code."⟩ ∧
    (handler ⟨["tmp", "w"], none, [], ⟨some 0, 0, "", ""⟩, ⟨some 0, 0, "", ""⟩, false⟩
        ⟨some "int x", none, none, none⟩).steps = [] := by
  have h4 := C4_entry_point "class B \x7b\x7d public class A \x7b\x7d"
    ⟨["tmp", "w"], none, [], ⟨some 0, 0, "", ""⟩, ⟨some 0, 0, "", ""⟩, false⟩
    ⟨some "int x", none, none, none⟩
  have herr := h4.2.2 rfl rfl (by decide)
  exact ⟨h4.1 "A" (by decide), herr.1, herr.2.1⟩

/-- C10: the entry-point name is resolved only from the mainClass field
or from class detection over the code field, never from the uploaded
files; a multi-file request with a blank mainClass field and no detectable
class in its code field receives the mainClass-not-found response before
any compile or run step, whatever classes its uploaded files declare. -/
theorem C10_resolution (env : HandlerEnv) (body : RunBody) :
    (∀ fs2 : Option (List FileEntry),
      resolveMainClass { body with files := fs2 } = resolveMainClass body) ∧
    (env.mkdirFails = none →
      ∀ fs, body.files = some fs → 0 < fs.length →
        jsTrim (body.mainClass.getD "") = "" →
        detectMainClass (normalize (body.code.getD "")) = none →
        (handler env body).response = ⟨200, mainClassNotFoundMsg⟩ ∧
        (handler env body).steps = []) := by
  refine ⟨fun fs2 => rfl, ?_⟩
  intro hmk fs hfs hlen hmc hdet
  have hw : writeFiles env.workDir body = .ok (writeMulti env.workDir fs) := by
    simp [writeFiles, hfs, hlen]
  have hres : resolveMainClass body = "" := by
    simp [resolveMainClass, hmc, hdet]
  constructor <;> simp [handler, handlerCore, hmk, hw, hres]

/-- C10 witness: a request whose only source is a files array declaring a
public class A, with no mainClass field and no code field, is answered
with the mainClass-not-found message and no pipeline step. -/
theorem C10_witness :
    detectMainClass "public class A" = some "A" ∧
    (handler ⟨["tmp", "w"], none, [["tmp", "w", "A.java"]],
        ⟨some 0, 0, "", ""⟩, ⟨some 0, 0, "", ""⟩, false⟩
        ⟨none, some [⟨"A.java", "public class A"⟩], none, none⟩).response
      = ⟨200, mainClassNotFoundMsg⟩ ∧
    (handler ⟨["tmp", "w"], none, [["tmp", "w", "A.java"]],
        ⟨some 0, 0, "", ""⟩, ⟨some 0, 0, "", ""⟩, false⟩
        ⟨none, some [⟨"A.java", "public class A"⟩], none, none⟩).steps = [] := by
  have h := (C10_resolution
    ⟨["tmp", "w"], none, [["tmp", "w", "A.java"]],
      ⟨some 0, 0, "", ""⟩, ⟨some 0, 0, "", ""⟩, false⟩
    ⟨none, some [⟨"A.java", "public class A"⟩], none, none⟩).2
    rfl [⟨"A.java", "public class A"⟩] rfl (by decide) (by decide) (by decide)
  exact ⟨by decide, h.1, h.2⟩

/-- C1: on every exit path of the handler — setup failure, input error,
missing entry point, or completed pipeline including both timeout kinds —
the finally block attempts the recursive forced removal of the
per-request WorkArea directory, the catch attached to the removal keeps a
removal failure from propagating, and the response, the steps and the
writes are unchanged by whether the removal fails. -/
theorem C1_cleanup (env : HandlerEnv) (body : RunBody) :
    (handler env body).rm = ⟨true, env.workDir, true, true, env.rmFails, false⟩ ∧
    ∀ b : Bool,
      (handler { env with rmFails := b } body).response = (handler env body).response ∧
      (handler { env with rmFails := b } body).steps = (handler env body).steps ∧
      (handler { env with rmFails := b } body).writes = (handler env body).writes :=
  ⟨rfl, fun _ => ⟨rfl, rfl, rfl⟩⟩

end JavaRunner
